import Mathlib

/-!
Verification of the motion-propagation engine of `inpaint-web` (video object
removal): a shallow embedding of the mask-warping / optical-flow adapters
(`src/adapters/raftTracking.ts`, `src/adapters/objectTracking.ts`) and of the
frame pipeline (`processFrames`), with theorems settling the testable
properties of the specification.

Conventions of the embedding:
* JavaScript numbers are modelled as rationals (`ℚ`); all arithmetic in the
  embedded routines is exact.
* An `ImageData` is a width/height pair plus a flat RGBA byte array, modelled
  as a total function `ℕ → ℚ`; only indices below `4 * width * height` are
  meaningful.
* Platform primitives (canvas `drawImage` resizing, the ONNX/OpenCV flow
  estimators) are parameters of the embedded functions: the theorems hold for
  every behaviour of those collaborators.
-/

namespace InpaintWeb

/-- Model of the DOM `ImageData`: `width`, `height` and the flat RGBA byte
array `data` (length `4 * width * height` in the browser; modelled as a total
function, indices past the length are irrelevant to every theorem below). -/
structure ImageData where
  width : ℕ
  height : ℕ
  data : ℕ → ℚ

/-- A resampling oracle standing for the canvas 2d `drawImage` scaling used by
`resizeImageData`: given the source image, the target dimensions and a flat
RGBA index, it yields the resized pixel byte.  The browser leaves the scaling
filter unspecified, so the development is parametric in it. -/
def Resample : Type := ImageData → ℕ → ℕ → ℕ → ℚ

/-- `RAFTMaskTracker.resizeImageData` / `FarnebackMaskTracker.resizeImageData`
(raftTracking.ts): draws the image onto a canvas of the target size and reads
it back with `getImageData(0, 0, targetWidth, targetHeight)`, whose result has
exactly the requested dimensions; pixel values come from the platform scaler
(the `resample` parameter). -/
def resizeImageData (resample : Resample) (imageData : ImageData)
    (targetWidth targetHeight : ℕ) : ImageData :=
  { width := targetWidth
    height := targetHeight
    data := fun i =>
      if i < 4 * targetWidth * targetHeight then resample imageData targetWidth targetHeight i
      else 0 }

/-- `Math.max(0, Math.min(hi, v))`: the clamp used by `bilinearSample`. -/
def bclamp (hi v : ℚ) : ℚ := max 0 (min hi v)

/-- Conversion of a rational to a stored `Uint8ClampedArray` byte: clamp to
`[0, 255]` and round to an integer.  (The browser rounds halves to even;
`round` rounds halves up.  No theorem below depends on the tie-breaking rule:
every value stored in the claims' scenarios is already an integer.) -/
def clampByte (v : ℚ) : ℚ := ((max 0 (min 255 (round v)) : ℤ) : ℚ)

/-- Floor of the clamped x coordinate (`const x0 = Math.floor(x)` after the
clamp) in `bilinearSample`. -/
def sampleX0 (img : ImageData) (x : ℚ) : ℤ := Int.floor (bclamp ((img.width : ℚ) - 1) x)

/-- `const x1 = Math.min(x0 + 1, width - 1)` in `bilinearSample`. -/
def sampleX1 (img : ImageData) (x : ℚ) : ℤ := min (sampleX0 img x + 1) ((img.width : ℤ) - 1)

/-- Floor of the clamped y coordinate in `bilinearSample`. -/
def sampleY0 (img : ImageData) (y : ℚ) : ℤ := Int.floor (bclamp ((img.height : ℚ) - 1) y)

/-- `const y1 = Math.min(y0 + 1, height - 1)` in `bilinearSample`. -/
def sampleY1 (img : ImageData) (y : ℚ) : ℤ := min (sampleY0 img y + 1) ((img.height : ℤ) - 1)

/-- `RAFTMaskTracker.bilinearSample` (identical in `FarnebackMaskTracker`):
clamps `(x, y)` into `[0, width-1] × [0, height-1]`, takes the four
neighbouring pixels of the red channel and blends them by the fractional
offsets.  Corner indices are integers that are non-negative on every input
(proved below), so reading the array through `Int.toNat` is faithful. -/
def bilinearSample (img : ImageData) (x y : ℚ) : ℚ :=
  let xc := bclamp ((img.width : ℚ) - 1) x
  let yc := bclamp ((img.height : ℚ) - 1) y
  let x0 := sampleX0 img x
  let x1 := sampleX1 img x
  let y0 := sampleY0 img y
  let y1 := sampleY1 img y
  let fx := xc - (x0 : ℚ)
  let fy := yc - (y0 : ℚ)
  let v00 := img.data ((y0 * img.width + x0) * 4).toNat
  let v10 := img.data ((y0 * img.width + x1) * 4).toNat
  let v01 := img.data ((y1 * img.width + x0) * 4).toNat
  let v11 := img.data ((y1 * img.width + x1) * 4).toNat
  let v0 := v00 * (1 - fx) + v10 * fx
  let v1 := v01 * (1 - fx) + v11 * fx
  v0 * (1 - fy) + v1 * fy

/-- A concrete 2×2 image with four pairwise different pixel values, used to
exercise `bilinearSample` outside the frame. -/
def edgeImg : ImageData :=
  { width := 2, height := 2,
    data := fun i => if i = 0 then 0 else if i = 4 then 7 else if i = 8 then 2
      else if i = 12 then 9 else 0 }

/-- The value written by the double loop of `warpMask` at destination pixel
`(x, y)`: read the flow at that pixel (`dx` from channel 0, `dy` from channel
1 of the `[2, H, W]` layout), pull the source location `(x - dx, y - dy)` and
bilinearly sample the (already resized) mask there. -/
def warpedValue (processedMask : ImageData) (flow : ℕ → ℚ)
    (flowWidth flowHeight x y : ℕ) : ℚ :=
  let flowIdx := y * flowWidth + x
  let dx := flow flowIdx
  let dy := flow (flowWidth * flowHeight + flowIdx)
  bilinearSample processedMask ((x : ℚ) - dx) ((y : ℚ) - dy)

/-- The `flowWidth × flowHeight` output `ImageData` filled by the double loop
of `warpMask`: the sampled value goes to all three colour channels (stored as
a clamped byte) and the alpha channel is set to 255. -/
def warpGrid (processedMask : ImageData) (flow : ℕ → ℚ)
    (flowWidth flowHeight : ℕ) : ImageData :=
  { width := flowWidth
    height := flowHeight
    data := fun i =>
      if i < 4 * flowWidth * flowHeight then
        if i % 4 = 3 then 255
        else clampByte (warpedValue processedMask flow flowWidth flowHeight
          ((i / 4) % flowWidth) ((i / 4) / flowWidth))
      else 0 }

/-- `RAFTMaskTracker.warpMask` (identical in `FarnebackMaskTracker`): if the
mask resolution differs from the flow resolution, resize the mask to the flow
resolution; warp pixel-by-pixel; if the resolutions differed, resize the
warped result back to the original mask resolution. -/
def warpMask (resample : Resample) (mask : ImageData) (flow : ℕ → ℚ)
    (flowWidth flowHeight : ℕ) : ImageData :=
  let processedMask :=
    if mask.width ≠ flowWidth ∨ mask.height ≠ flowHeight then
      resizeImageData resample mask flowWidth flowHeight
    else mask
  let warpedMask := warpGrid processedMask flow flowWidth flowHeight
  if mask.width ≠ flowWidth ∨ mask.height ≠ flowHeight then
    resizeImageData resample warpedMask mask.width mask.height
  else warpedMask

/-- C6 witness objects: a 1×1 all-white canonical mask. -/
def whiteMask : ImageData := { width := 1, height := 1, data := fun _ => 255 }

/-- An all-zero displacement field. -/
def zeroFlow : ℕ → ℚ := fun _ => 0

/-- A trivial resampling oracle (unused on the equal-resolution path). -/
def zeroResample : Resample := fun _ _ _ _ => 0

/-- `{ x, y, width, height }` bounding boxes of `objectTracking.ts`. -/
structure Box where
  x : ℚ
  y : ℚ
  width : ℚ
  height : ℚ
deriving DecidableEq

/-- The mutable state of `SimpleObjectTracker` that the claims observe: the
feature points carried to the next `track` call and the current bounding box.
(The grayscale frame Mats carry no information used by the embedded logic;
the optical-flow results they feed are inputs of `trackStep`.) -/
structure TrackerState where
  prevPoints : List (ℚ × ℚ)
  bbox : Box
deriving DecidableEq

/-- The point filter of `SimpleObjectTracker.initialize`: keep a detected
feature at `(x, y)` iff `x ≥ bbox.x && x ≤ bbox.x + bbox.width && y ≥ bbox.y
&& y ≤ bbox.y + bbox.height` (all four edges inclusive). -/
def pointInBBox (bbox : Box) (p : ℚ × ℚ) : Bool :=
  decide (bbox.x ≤ p.1) && decide (p.1 ≤ bbox.x + bbox.width) &&
  decide (bbox.y ≤ p.2) && decide (p.2 ≤ bbox.y + bbox.height)

/-- `SimpleObjectTracker.initialize`: stores a copy of the given box — with no
clamping — and keeps only the detected feature points (the
`goodFeaturesToTrack` output, an input here) lying inside the box.  There is
no failure path: with zero points inside the box it completes normally with an
empty point set. -/
def initTracker (bbox : Box) (detectedPoints : List (ℚ × ℚ)) : TrackerState :=
  { prevPoints := detectedPoints.filter (pointInBBox bbox), bbox := bbox }

/-- The status-filtering loop of `SimpleObjectTracker.track`: pair previous
and next points positionally and keep the pairs whose status flag is set. -/
def goodMatches (prevPoints nextPoints : List (ℚ × ℚ)) (status : List Bool) :
    List ((ℚ × ℚ) × (ℚ × ℚ)) :=
  (((prevPoints.zip nextPoints).zip status).filter (fun m => m.2)).map (fun m => m.1)

/-- `arr.sort((a, b) => a - b)` followed by `arr[Math.floor(arr.length / 2)]`:
the (upper) median selection used by `track` on each displacement axis.  An
out-of-range index (empty array) yields `undefined` in JavaScript; the code
only evaluates it on arrays of length ≥ 2, so the default value is
irrelevant. -/
def jsMedian (l : List ℚ) : ℚ :=
  let sorted := l.mergeSort (fun a b => decide (a ≤ b))
  sorted.getD (sorted.length / 2) 0

/-- `SimpleObjectTracker.track` on an initialized tracker, given the outputs
of `calcOpticalFlowPyrLK` (`nextPoints` and per-point `status`) and the
current frame dimensions `cols × rows`.  Mirrors the source exactly:
`goodNext` is the flat coordinate array, two entries per valid pair, so the
lost-tracking guard `goodNext.length < 4` compares `2 * (number of valid
pairs)` against 4.  Returns the updated state, the returned box and whether
the lost-tracking branch was taken (observable as the early return of the
previous box object). -/
def trackStep (st : TrackerState) (cols rows : ℚ) (nextPoints : List (ℚ × ℚ))
    (status : List Bool) : TrackerState × Box × Bool :=
  let good := goodMatches st.prevPoints nextPoints status
  if 2 * good.length < 4 then
    (st, st.bbox, true)
  else
    let deltaX := good.map (fun m => m.2.1 - m.1.1)
    let deltaY := good.map (fun m => m.2.2 - m.1.2)
    let medianDx := jsMedian deltaX
    let medianDy := jsMedian deltaY
    let newBox : Box :=
      { x := max 0 (min (cols - st.bbox.width) (st.bbox.x + medianDx))
        y := max 0 (min (rows - st.bbox.height) (st.bbox.y + medianDy))
        width := st.bbox.width
        height := st.bbox.height }
    ({ prevPoints := nextPoints, bbox := newBox }, newBox, false)

/-- A tracker state carrying three feature points. -/
def st3 : TrackerState :=
  { prevPoints := [(10, 10), (20, 10), (30, 10)], bbox := ⟨10, 10, 5, 5⟩ }

/-- Flow output moving all three points one pixel right. -/
def next3 : List (ℚ × ℚ) := [(11, 10), (21, 10), (31, 10)]

/-- All three points tracked successfully. -/
def status3 : List Bool := [true, true, true]

/-- A tracker state carrying no feature points. -/
def stEmpty : TrackerState := { prevPoints := [], bbox := ⟨10, 10, 5, 5⟩ }

/-- A user-drawn box protruding past the left frame edge; `initialize` keeps
it as-is. -/
def badBox : Box := ⟨-5, 0, 10, 10⟩

/-- The user box for the C5 scenario. -/
def box0 : Box := ⟨10, 10, 5, 5⟩

/-- Detected frame features, none of which falls inside `box0`. -/
def farPoints : List (ℚ × ℚ) := [(0, 0), (50, 50)]

/-- A tracker state carrying ten feature points, with the box away from the
frame border. -/
def st10 : TrackerState :=
  { prevPoints := [(10, 10), (20, 10), (30, 10), (40, 10), (50, 10), (60, 10),
      (70, 10), (80, 10), (90, 10), (15, 40)]
    bbox := ⟨20, 20, 5, 5⟩ }

/-- Flow output for `st10`: the first six points move by `(3, -2)`, the last
four are outliers. -/
def next10 : List (ℚ × ℚ) :=
  [(13, 8), (23, 8), (33, 8), (43, 8), (53, 8), (63, 8),
   (90, 60), (10, 5), (80, 80), (0, 0)]

/-- All ten points report valid status. -/
def status10 : List Bool :=
  [true, true, true, true, true, true, true, true, true, true]

/-- Model of an `ort.Tensor`: the `dims` shape list and the flat float
buffer. -/
structure OrtTensor where
  dims : List ℕ
  data : ℕ → ℚ

/-- `RAFTMaskTracker.imageDataToTensor`: resize the frame to the fixed
480×360 RAFT input resolution when its dimensions differ, normalise each RGB
byte to `[0, 1]` by dividing by 255, and pack the three channels in CHW order
under a batch dimension of one: `dims = [1, 3, 360, 480]`.  (The defensive
throws of the source — empty buffer, wrong buffer length, non-finite pixel —
cannot fire in this model, where buffers are total functions over exact
rationals.) -/
def imageDataToTensor (resample : Resample) (imageData : ImageData) : OrtTensor :=
  let targetWidth : ℕ := 480
  let targetHeight : ℕ := 360
  let processedData :=
    if imageData.width ≠ targetWidth ∨ imageData.height ≠ targetHeight then
      resizeImageData resample imageData targetWidth targetHeight
    else imageData
  { dims := [1, 3, targetHeight, targetWidth]
    data := fun k =>
      if k < targetHeight * targetWidth then
        processedData.data (k * 4) / 255
      else if k < 2 * (targetHeight * targetWidth) then
        processedData.data ((k - targetHeight * targetWidth) * 4 + 1) / 255
      else if k < 3 * (targetHeight * targetWidth) then
        processedData.data ((k - 2 * (targetHeight * targetWidth)) * 4 + 2) / 255
      else 0 }

/-- A concrete all-black 640×352 frame (dimensions differing from the RAFT
input resolution). -/
def blackFrame : ImageData := { width := 640, height := 352, data := fun _ => 0 }

/-- The frame loop of `processFrames` (video-processing module): process the
remaining frames starting at index `i` out of `total`, collecting the
processed results and, after each frame, the progress value
`50 + ((i + 1) / total) * 50` handed to `onProgress`. -/
def processFramesAux {α β : Type} (processFrame : α → ℕ → β) (total : ℕ) :
    List α → ℕ → List β × List ℚ
  | [], _ => ([], [])
  | frame :: rest, i =>
    let processed := processFrame frame i
    let progress : ℚ := 50 + (((i : ℚ) + 1) / (total : ℚ)) * 50
    let r := processFramesAux processFrame total rest (i + 1)
    (processed :: r.1, progress :: r.2)

/-- `processFrames`: sequentially inpaint every frame through the supplied
callback, reporting a completion percentage after each frame.  Returns the
processed frames and the reported progress values in call order. -/
def processFrames {α β : Type} (frames : List α) (processFrame : α → ℕ → β) :
    List β × List ℚ :=
  processFramesAux processFrame frames.length frames 0

/-- The mutable session fields of `RAFTMaskTracker` observed by `track`:
`previousFrame` and `currentMask`, both `null` until `setReference`. -/
structure RaftState where
  previousFrame : Option ImageData
  currentMask : Option ImageData

/-- `RAFTMaskTracker.track` in state-passing form.  The ONNX inference
(`computeOpticalFlow`, which can reject/throw) and the platform layer under
mask warping (which can throw, e.g. a zero-dimension `ImageData`) are
`Except`-valued oracles.  Mirroring the source, the two state assignments
happen only after both steps return; the guard clause throws when the
reference is not set.  The first component is the call's outcome, the second
the session state after the call. -/
def raftTrack
    (computeOpticalFlow : ImageData → ImageData → Except String ((ℕ → ℚ) × ℕ × ℕ))
    (warp : ImageData → (ℕ → ℚ) → ℕ → ℕ → Except String ImageData)
    (st : RaftState) (nextFrameData : ImageData) :
    Except String ImageData × RaftState :=
  match st.previousFrame, st.currentMask with
  | some previousFrame, some currentMask =>
    match computeOpticalFlow previousFrame nextFrameData with
    | Except.error e => (Except.error e, st)
    | Except.ok (flow, flowWidth, flowHeight) =>
      match warp currentMask flow flowWidth flowHeight with
      | Except.error e => (Except.error e, st)
      | Except.ok warpedMask =>
        (Except.ok warpedMask,
         { previousFrame := some nextFrameData, currentMask := some warpedMask })
  | _, _ => (Except.error ("RAFT tracker not initialized or reference not set"), st)

/-- The mutable session fields of `FarnebackMaskTracker`. -/
structure FarnebackState where
  previousFrame : Option ImageData
  previousFrameGray : Option ImageData
  currentMask : Option ImageData

/-- `FarnebackMaskTracker.track` in state-passing form; `cvtColor` is the
grayscale conversion, `computeOpticalFlow` the Farneback routine (which can
throw) and `warp` as in `raftTrack`.  All three state assignments happen only
after the flow and the warped mask are computed. -/
def farnebackTrack
    (cvtColor : ImageData → ImageData)
    (computeOpticalFlow : ImageData → ImageData → Except String ((ℕ → ℚ) × ℕ × ℕ))
    (warp : ImageData → (ℕ → ℚ) → ℕ → ℕ → Except String ImageData)
    (st : FarnebackState) (nextFrame : ImageData) :
    Except String ImageData × FarnebackState :=
  match st.previousFrameGray, st.currentMask with
  | some previousFrameGray, some currentMask =>
    let nextFrameGray := cvtColor nextFrame
    match computeOpticalFlow previousFrameGray nextFrameGray with
    | Except.error e => (Except.error e, st)
    | Except.ok (flow, flowWidth, flowHeight) =>
      match warp currentMask flow flowWidth flowHeight with
      | Except.error e => (Except.error e, st)
      | Except.ok warpedMask =>
        (Except.ok warpedMask,
         { previousFrame := some nextFrame, previousFrameGray := some nextFrameGray,
           currentMask := some warpedMask })
  | _, _ => (Except.error ("Farneback tracker not initialized or reference not set"), st)

/-- A flow oracle that always throws, standing for a failed inference. -/
def failFlow : ImageData → ImageData → Except String ((ℕ → ℚ) × ℕ × ℕ) :=
  fun _ _ => Except.error ("RAFT inference failed")

/-- A warp oracle that never throws and returns the mask unchanged. -/
def okWarp : ImageData → (ℕ → ℚ) → ℕ → ℕ → Except String ImageData :=
  fun mask _ _ _ => Except.ok mask

/-- A RAFT session state with the reference set. -/
def raftState0 : RaftState :=
  { previousFrame := some whiteMask, currentMask := some whiteMask }

unseal List.merge List.mergeSort

theorem bclamp_nonneg (hi v : ℚ) : 0 ≤ bclamp hi v := le_max_left 0 _

theorem bclamp_le (hi v : ℚ) (h : 0 ≤ hi) : bclamp hi v ≤ hi :=
  max_le h (min_le_left hi v)

theorem bclamp_idem (hi v : ℚ) (h : 0 ≤ hi) : bclamp hi (bclamp hi v) = bclamp hi v := by
  unfold bclamp
  rw [min_eq_right (max_le h (min_le_left hi v)), max_eq_right (le_max_left 0 (min hi v))]

theorem sampleX0_nonneg (img : ImageData) (x : ℚ) : 0 ≤ sampleX0 img x :=
  Int.le_floor.mpr (by exact_mod_cast bclamp_nonneg ((img.width : ℚ) - 1) x)

theorem sampleY0_nonneg (img : ImageData) (y : ℚ) : 0 ≤ sampleY0 img y :=
  Int.le_floor.mpr (by exact_mod_cast bclamp_nonneg ((img.height : ℚ) - 1) y)

theorem sampleX0_le (img : ImageData) (x : ℚ) (hw : 0 < img.width) :
    sampleX0 img x ≤ (img.width : ℤ) - 1 := by
  have h1 : (1 : ℚ) ≤ (img.width : ℚ) := by exact_mod_cast hw
  have hcast : ((img.width : ℚ) - 1) = (((img.width : ℤ) - 1 : ℤ) : ℚ) := by push_cast; ring
  calc sampleX0 img x ≤ Int.floor ((img.width : ℚ) - 1) :=
        Int.floor_le_floor (bclamp_le _ _ (by linarith))
    _ = (img.width : ℤ) - 1 := by rw [hcast, Int.floor_intCast]

theorem sampleY0_le (img : ImageData) (y : ℚ) (hh : 0 < img.height) :
    sampleY0 img y ≤ (img.height : ℤ) - 1 := by
  have h1 : (1 : ℚ) ≤ (img.height : ℚ) := by exact_mod_cast hh
  have hcast : ((img.height : ℚ) - 1) = (((img.height : ℤ) - 1 : ℤ) : ℚ) := by push_cast; ring
  calc sampleY0 img y ≤ Int.floor ((img.height : ℚ) - 1) :=
        Int.floor_le_floor (bclamp_le _ _ (by linarith))
    _ = (img.height : ℤ) - 1 := by rw [hcast, Int.floor_intCast]

theorem sampleX1_mem (img : ImageData) (x : ℚ) (hw : 0 < img.width) :
    0 ≤ sampleX1 img x ∧ sampleX1 img x ≤ (img.width : ℤ) - 1 := by
  constructor
  · exact le_min (by linarith [sampleX0_nonneg img x]) (by omega)
  · exact min_le_right _ _

theorem sampleY1_mem (img : ImageData) (y : ℚ) (hh : 0 < img.height) :
    0 ≤ sampleY1 img y ∧ sampleY1 img y ≤ (img.height : ℤ) - 1 := by
  constructor
  · exact le_min (by linarith [sampleY0_nonneg img y]) (by omega)
  · exact min_le_right _ _

/-- The clamped coordinate of an out-of-range input is the integral edge
coordinate `0` (below range) or `size - 1` (above range). -/
theorem bclamp_out_of_range (w : ℕ) (x : ℚ) (hw : 0 < w)
    (hx : x < 0 ∨ (w : ℚ) - 1 < x) :
    bclamp ((w : ℚ) - 1) x = ((if x < 0 then 0 else (w : ℤ) - 1 : ℤ) : ℚ) := by
  have h1 : (1 : ℚ) ≤ (w : ℚ) := by exact_mod_cast hw
  by_cases hneg : x < 0
  · rw [if_pos hneg]
    unfold bclamp
    rw [min_eq_right (by linarith), max_eq_left (le_of_lt hneg)]
    norm_num
  · rw [if_neg hneg]
    have hgt : (w : ℚ) - 1 < x := hx.resolve_left hneg
    unfold bclamp
    rw [min_eq_left (le_of_lt hgt), max_eq_right (by linarith)]
    push_cast
    ring

/-- C3 (amended): for every image of positive dimensions and every coordinate
pair, (1) the four corner indices read by `bilinearSample` lie within
`[0, width-1] × [0, height-1]`, so only in-bounds pixels are read; (2) the
result equals the sample at the clamped (nearest in-range) coordinates
(clamp-to-edge, not wrap, not zero-fill); (3) when both coordinates are out of
the clamp range the result is exactly the value of the nearest corner pixel. -/
theorem bilinearSample_clamp_spec (img : ImageData) (x y : ℚ)
    (hw : 0 < img.width) (hh : 0 < img.height) :
    (0 ≤ sampleX0 img x ∧ sampleX0 img x ≤ (img.width : ℤ) - 1 ∧
     0 ≤ sampleX1 img x ∧ sampleX1 img x ≤ (img.width : ℤ) - 1 ∧
     0 ≤ sampleY0 img y ∧ sampleY0 img y ≤ (img.height : ℤ) - 1 ∧
     0 ≤ sampleY1 img y ∧ sampleY1 img y ≤ (img.height : ℤ) - 1) ∧
    bilinearSample img x y =
      bilinearSample img (bclamp ((img.width : ℚ) - 1) x)
        (bclamp ((img.height : ℚ) - 1) y) ∧
    ((x < 0 ∨ (img.width : ℚ) - 1 < x) → (y < 0 ∨ (img.height : ℚ) - 1 < y) →
      bilinearSample img x y =
        img.data ((((if y < 0 then 0 else (img.height : ℤ) - 1) * img.width +
          (if x < 0 then 0 else (img.width : ℤ) - 1)) * 4).toNat)) := by
  have hw1 : (0 : ℚ) ≤ (img.width : ℚ) - 1 := by
    have : (1 : ℚ) ≤ (img.width : ℚ) := by exact_mod_cast hw
    linarith
  have hh1 : (0 : ℚ) ≤ (img.height : ℚ) - 1 := by
    have : (1 : ℚ) ≤ (img.height : ℚ) := by exact_mod_cast hh
    linarith
  refine ⟨⟨sampleX0_nonneg img x, sampleX0_le img x hw, (sampleX1_mem img x hw).1,
    (sampleX1_mem img x hw).2, sampleY0_nonneg img y, sampleY0_le img y hh,
    (sampleY1_mem img y hh).1, (sampleY1_mem img y hh).2⟩, ?_, ?_⟩
  · have ex : bclamp ((img.width : ℚ) - 1) (bclamp ((img.width : ℚ) - 1) x) =
        bclamp ((img.width : ℚ) - 1) x := bclamp_idem _ _ hw1
    have ey : bclamp ((img.height : ℚ) - 1) (bclamp ((img.height : ℚ) - 1) y) =
        bclamp ((img.height : ℚ) - 1) y := bclamp_idem _ _ hh1
    have ex0 : sampleX0 img (bclamp ((img.width : ℚ) - 1) x) = sampleX0 img x := by
      unfold sampleX0; rw [ex]
    have ey0 : sampleY0 img (bclamp ((img.height : ℚ) - 1) y) = sampleY0 img y := by
      unfold sampleY0; rw [ey]
    have ex1 : sampleX1 img (bclamp ((img.width : ℚ) - 1) x) = sampleX1 img x := by
      unfold sampleX1; rw [ex0]
    have ey1 : sampleY1 img (bclamp ((img.height : ℚ) - 1) y) = sampleY1 img y := by
      unfold sampleY1; rw [ey0]
    simp only [bilinearSample, ex, ey, ex0, ey0, ex1, ey1]
  · intro hx hy
    have hxc : bclamp ((img.width : ℚ) - 1) x =
        ((if x < 0 then 0 else (img.width : ℤ) - 1 : ℤ) : ℚ) :=
      bclamp_out_of_range img.width x hw hx
    have hyc : bclamp ((img.height : ℚ) - 1) y =
        ((if y < 0 then 0 else (img.height : ℤ) - 1 : ℤ) : ℚ) :=
      bclamp_out_of_range img.height y hh hy
    have hx0 : sampleX0 img x = (if x < 0 then 0 else (img.width : ℤ) - 1) := by
      unfold sampleX0; rw [hxc, Int.floor_intCast]
    have hy0 : sampleY0 img y = (if y < 0 then 0 else (img.height : ℤ) - 1) := by
      unfold sampleY0; rw [hyc, Int.floor_intCast]
    simp only [bilinearSample, hxc, hyc, hx0, hy0, sub_self, mul_zero, mul_one,
      add_zero, sub_zero, one_mul, zero_mul, zero_add]

/-- C3 counterexample: at `(x, y) = (-1, 1/2)` — outside `[0,2) × [0,2)` —
`bilinearSample` on `edgeImg` returns `1`, which is not the value of any pixel
of the image, in particular not of the nearest edge pixel: the result blends
the two edge pixels `(0,0)` and `(0,1)` along the in-range axis. -/
theorem bilinearSample_not_nearest_pixel :
    bilinearSample edgeImg (-1) (1/2) = 1 ∧
    edgeImg.data ((0 * 2 + 0) * 4) ≠ 1 ∧ edgeImg.data ((0 * 2 + 1) * 4) ≠ 1 ∧
    edgeImg.data ((1 * 2 + 0) * 4) ≠ 1 ∧ edgeImg.data ((1 * 2 + 1) * 4) ≠ 1 := by
  refine ⟨?_, by decide, by decide, by decide, by decide⟩
  norm_num [bilinearSample, sampleX0, sampleX1, sampleY0, sampleY1, bclamp,
    edgeImg, min_def, max_def]
  decide

/-- C3 witness: the amended clamp-to-edge theorem instantiated on `edgeImg`
at the concrete out-of-frame coordinates `(-2, 3)`. -/
theorem bilinearSample_clamp_spec_witness :
    0 < edgeImg.width ∧ 0 < edgeImg.height ∧
    ((0 ≤ sampleX0 edgeImg (-2) ∧ sampleX0 edgeImg (-2) ≤ (edgeImg.width : ℤ) - 1 ∧
      0 ≤ sampleX1 edgeImg (-2) ∧ sampleX1 edgeImg (-2) ≤ (edgeImg.width : ℤ) - 1 ∧
      0 ≤ sampleY0 edgeImg 3 ∧ sampleY0 edgeImg 3 ≤ (edgeImg.height : ℤ) - 1 ∧
      0 ≤ sampleY1 edgeImg 3 ∧ sampleY1 edgeImg 3 ≤ (edgeImg.height : ℤ) - 1) ∧
     bilinearSample edgeImg (-2) 3 =
       bilinearSample edgeImg (bclamp ((edgeImg.width : ℚ) - 1) (-2))
         (bclamp ((edgeImg.height : ℚ) - 1) 3) ∧
     (((-2 : ℚ) < 0 ∨ (edgeImg.width : ℚ) - 1 < -2) →
      ((3 : ℚ) < 0 ∨ (edgeImg.height : ℚ) - 1 < 3) →
      bilinearSample edgeImg (-2) 3 =
        edgeImg.data ((((if (3 : ℚ) < 0 then 0 else (edgeImg.height : ℤ) - 1) * edgeImg.width +
          (if (-2 : ℚ) < 0 then 0 else (edgeImg.width : ℤ) - 1)) * 4).toNat))) :=
  ⟨by decide, by decide, bilinearSample_clamp_spec edgeImg (-2) 3 (by decide) (by decide)⟩

/-- C2: whatever the flow-field resolution (equal to or different from the
mask resolution) and whatever the platform resampler does, `warpMask` returns
a mask with exactly the width and height of the input mask. -/
theorem warpMask_dims (resample : Resample) (mask : ImageData) (flow : ℕ → ℚ)
    (flowWidth flowHeight : ℕ) :
    (warpMask resample mask flow flowWidth flowHeight).width = mask.width ∧
    (warpMask resample mask flow flowWidth flowHeight).height = mask.height := by
  by_cases h : mask.width ≠ flowWidth ∨ mask.height ≠ flowHeight
  · constructor <;> simp [warpMask, h, resizeImageData]
  · push_neg at h
    constructor <;> simp [warpMask, h.1, h.2, warpGrid]

theorem clampByte_natCast (n : ℕ) (h : n ≤ 255) : clampByte (n : ℚ) = (n : ℚ) := by
  unfold clampByte
  rw [round_natCast, min_eq_right (by exact_mod_cast h), max_eq_right (by positivity)]
  push_cast
  ring

/-- Sampling at exact integer in-range coordinates returns the red-channel
byte of that pixel. -/
theorem bilinearSample_natCast (img : ImageData) (x y : ℕ)
    (hx : x < img.width) (hy : y < img.height) :
    bilinearSample img (x : ℚ) (y : ℚ) = img.data ((y * img.width + x) * 4) := by
  have hxq : (x : ℚ) + 1 ≤ (img.width : ℚ) := by exact_mod_cast hx
  have hyq : (y : ℚ) + 1 ≤ (img.height : ℚ) := by exact_mod_cast hy
  have hxc : bclamp ((img.width : ℚ) - 1) (x : ℚ) = (x : ℚ) := by
    unfold bclamp
    rw [min_eq_right (by linarith), max_eq_right (by positivity)]
  have hyc : bclamp ((img.height : ℚ) - 1) (y : ℚ) = (y : ℚ) := by
    unfold bclamp
    rw [min_eq_right (by linarith), max_eq_right (by positivity)]
  have hx0 : sampleX0 img (x : ℚ) = (x : ℤ) := by
    unfold sampleX0; rw [hxc]; exact Int.floor_natCast x
  have hy0 : sampleY0 img (y : ℚ) = (y : ℤ) := by
    unfold sampleY0; rw [hyc]; exact Int.floor_natCast y
  simp only [bilinearSample, hxc, hyc, hx0, hy0, Int.cast_natCast, sub_self,
    mul_zero, mul_one, add_zero, sub_zero, one_mul, zero_mul, zero_add]
  exact congrArg img.data (by omega)

/-- C6: warping a canonical byte-valued mask (`R = G = B`, `A = 255`) with an
all-zero displacement field of the same resolution reproduces the input mask
byte for byte. -/
theorem warpMask_zero_flow_identity (resample : Resample) (mask : ImageData)
    (flow : ℕ → ℚ)
    (hflow : ∀ i, i < 2 * (mask.width * mask.height) → flow i = 0)
    (hbyte : ∀ p, p < mask.width * mask.height →
      ∃ n : ℕ, n ≤ 255 ∧ mask.data (4 * p) = (n : ℚ))
    (hcanon : ∀ p, p < mask.width * mask.height →
      mask.data (4 * p + 1) = mask.data (4 * p) ∧
      mask.data (4 * p + 2) = mask.data (4 * p) ∧
      mask.data (4 * p + 3) = 255) :
    (warpMask resample mask flow mask.width mask.height).width = mask.width ∧
    (warpMask resample mask flow mask.width mask.height).height = mask.height ∧
    ∀ i, i < 4 * (mask.width * mask.height) →
      (warpMask resample mask flow mask.width mask.height).data i = mask.data i := by
  have hwm : warpMask resample mask flow mask.width mask.height =
      warpGrid mask flow mask.width mask.height := by
    simp [warpMask]
  refine ⟨by rw [hwm]; rfl, by rw [hwm]; rfl, ?_⟩
  intro i hi
  have hm4 : i < mask.width * mask.height * 4 := by rw [Nat.mul_comm]; exact hi
  have hp : i / 4 < mask.width * mask.height :=
    (Nat.div_lt_iff_lt_mul (by norm_num)).mpr hm4
  have hw : 0 < mask.width :=
    Nat.pos_of_ne_zero (fun h0 => by rw [h0, Nat.zero_mul] at hp; omega)
  have hx : (i / 4) % mask.width < mask.width := Nat.mod_lt _ hw
  have hy : (i / 4) / mask.width < mask.height :=
    (Nat.div_lt_iff_lt_mul hw).mpr (by rw [Nat.mul_comm]; exact hp)
  have hpi : (i / 4) / mask.width * mask.width + (i / 4) % mask.width = i / 4 := by
    rw [Nat.mul_comm]; exact Nat.div_add_mod (i / 4) mask.width
  have hwv : warpedValue mask flow mask.width mask.height
      ((i / 4) % mask.width) ((i / 4) / mask.width) = mask.data (4 * (i / 4)) := by
    simp only [warpedValue]
    rw [hpi, hflow (i / 4) (lt_of_lt_of_le hp (Nat.le_mul_of_pos_left _ (by norm_num))),
      hflow (mask.width * mask.height + i / 4)
        (by rw [Nat.two_mul]; exact Nat.add_lt_add_left hp _),
      sub_zero, sub_zero,
      bilinearSample_natCast mask ((i / 4) % mask.width) ((i / 4) / mask.width) hx hy]
    rw [hpi, Nat.mul_comm]
  obtain ⟨n, hn255, hdn⟩ := hbyte (i / 4) hp
  have hi4 : i < 4 * mask.width * mask.height := by rw [Nat.mul_assoc]; exact hi
  rw [hwm]
  simp only [warpGrid]
  rw [if_pos hi4]
  have hc : i % 4 = 0 ∨ i % 4 = 1 ∨ i % 4 = 2 ∨ i % 4 = 3 := by omega
  rcases hc with hc | hc | hc | hc
  · rw [if_neg (by omega), hwv, hdn, clampByte_natCast n hn255,
      show i = 4 * (i / 4) from by omega]
    exact hdn.symm
  · rw [if_neg (by omega), hwv, hdn, clampByte_natCast n hn255,
      show i = 4 * (i / 4) + 1 from by omega, (hcanon (i / 4) hp).1]
    exact hdn.symm
  · rw [if_neg (by omega), hwv, hdn, clampByte_natCast n hn255,
      show i = 4 * (i / 4) + 2 from by omega, (hcanon (i / 4) hp).2.1]
    exact hdn.symm
  · rw [if_pos hc, show i = 4 * (i / 4) + 3 from by omega]
    exact (hcanon (i / 4) hp).2.2.symm

/-- C6 witness: the zero-flow identity instantiated on the concrete 1×1
all-white mask. -/
theorem warpMask_zero_flow_identity_witness :
    (∀ i, i < 2 * (whiteMask.width * whiteMask.height) → zeroFlow i = 0) ∧
    ((warpMask zeroResample whiteMask zeroFlow whiteMask.width whiteMask.height).width =
        whiteMask.width ∧
     (warpMask zeroResample whiteMask zeroFlow whiteMask.width whiteMask.height).height =
        whiteMask.height ∧
     ∀ i, i < 4 * (whiteMask.width * whiteMask.height) →
       (warpMask zeroResample whiteMask zeroFlow whiteMask.width whiteMask.height).data i =
         whiteMask.data i) :=
  ⟨fun _ _ => rfl,
   warpMask_zero_flow_identity zeroResample whiteMask zeroFlow (fun _ _ => rfl)
     (fun _ _ => ⟨255, by norm_num, by norm_num [whiteMask]⟩)
     (fun _ _ => ⟨rfl, rfl, rfl⟩)⟩

/-- The lost-tracking branch of `trackStep`, characterised: it fires exactly
when fewer than two valid pairs remain and leaves everything unchanged. -/
theorem trackStep_lost_eq (st : TrackerState) (cols rows : ℚ)
    (nextPoints : List (ℚ × ℚ)) (status : List Bool)
    (h : (goodMatches st.prevPoints nextPoints status).length < 2) :
    trackStep st cols rows nextPoints status = (st, st.bbox, true) := by
  simp only [trackStep]
  rw [if_pos (by omega)]

/-- The median-update branch of `trackStep`, characterised. -/
theorem trackStep_success_eq (st : TrackerState) (cols rows : ℚ)
    (nextPoints : List (ℚ × ℚ)) (status : List Bool)
    (h : 2 ≤ (goodMatches st.prevPoints nextPoints status).length) :
    trackStep st cols rows nextPoints status =
      ({ prevPoints := nextPoints
         bbox :=
          { x := max 0 (min (cols - st.bbox.width) (st.bbox.x +
              jsMedian ((goodMatches st.prevPoints nextPoints status).map
                (fun m => m.2.1 - m.1.1))))
            y := max 0 (min (rows - st.bbox.height) (st.bbox.y +
              jsMedian ((goodMatches st.prevPoints nextPoints status).map
                (fun m => m.2.2 - m.1.2))))
            width := st.bbox.width
            height := st.bbox.height } },
       { x := max 0 (min (cols - st.bbox.width) (st.bbox.x +
           jsMedian ((goodMatches st.prevPoints nextPoints status).map
             (fun m => m.2.1 - m.1.1))))
         y := max 0 (min (rows - st.bbox.height) (st.bbox.y +
           jsMedian ((goodMatches st.prevPoints nextPoints status).map
             (fun m => m.2.2 - m.1.2))))
         width := st.bbox.width
         height := st.bbox.height }, false) := by
  simp only [trackStep]
  rw [if_neg (by omega)]

/-- In a sorted list, the element at index `k` equals `v` whenever fewer than
`k + 1` elements are smaller than `v` and more than `k` elements are at most
`v`. -/
theorem sorted_getD_eq (v : ℚ) :
    ∀ s : List ℚ, s.Sorted (· ≤ ·) → ∀ k : ℕ, k < s.length →
      s.countP (fun a => decide (a < v)) ≤ k →
      k < s.countP (fun a => decide (a ≤ v)) →
      s.getD k 0 = v := by
  intro s
  induction s with
  | nil => intro _ k hk; simp at hk
  | cons a t ih =>
    intro hs k hk h1 h2
    obtain ⟨ha, ht⟩ := List.sorted_cons.mp hs
    rw [List.countP_cons] at h1 h2
    cases k with
    | zero =>
      have hva : v ≤ a := by
        by_contra hva
        have hav : a < v := not_le.mp hva
        simp [hav] at h1
      by_cases hav : a ≤ v
      · simpa using le_antisymm hav hva
      · exfalso
        have h2' : 0 < List.countP (fun x => decide (x ≤ v)) t := by
          simpa [hav] using h2
        obtain ⟨b, hbt, hb⟩ := List.countP_pos_iff.mp h2'
        exact hav (le_trans (ha b hbt) (by simpa using hb))
    | succ k =>
      have hlen : k < t.length := by simpa using hk
      have h1' : List.countP (fun x => decide (x < v)) t ≤ k := by
        by_cases hpa : a < v
        · simp [hpa] at h1
          omega
        · have hz : List.countP (fun x => decide (x < v)) t = 0 := by
            apply List.countP_eq_zero.mpr
            intro b hb
            simpa using not_lt.mpr (le_trans (not_lt.mp hpa) (ha b hb))
          omega
      have h2' : k < List.countP (fun x => decide (x ≤ v)) t := by
        by_cases hav : a ≤ v
        · simp [hav] at h2
          omega
        · simp [hav] at h2
          omega
      simpa using ih ht k hlen h1' h2'

/-- Entries below `v` and entries equal to `v` are disjoint populations of a
list. -/
theorem countP_lt_add_count_le (v : ℚ) (s : List ℚ) :
    s.countP (fun a => decide (a < v)) + s.count v ≤ s.length := by
  induction s with
  | nil => simp
  | cons a t ih =>
    rw [List.countP_cons, List.count_cons, List.length_cons]
    by_cases h1 : a < v
    · have h2 : a ≠ v := fun h => absurd (h ▸ h1) (lt_irrefl v)
      simp [h1, h2, Ne.symm h2]
      omega
    · simp [h1]
      by_cases h3 : a = v <;> simp [h3] <;> omega

/-- If a strict majority of the entries of an array share the value `v`, the
JavaScript median-by-sort selection returns `v` — whatever the remaining
(minority, outlier) entries are. -/
theorem jsMedian_majority (l : List ℚ) (v : ℚ) (hcount : l.length / 2 < l.count v) :
    jsMedian l = v := by
  have hperm : List.Perm (l.mergeSort (fun a b => decide (a ≤ b))) l :=
    List.mergeSort_perm l _
  have hsorted : (l.mergeSort (fun a b => decide (a ≤ b))).Sorted (· ≤ ·) :=
    List.sorted_mergeSort' l
  have hlen : (l.mergeSort (fun a b => decide (a ≤ b))).length = l.length := hperm.length_eq
  have hcnt : (l.mergeSort (fun a b => decide (a ≤ b))).count v = l.count v :=
    hperm.count_eq v
  have hcle : l.count v ≤ l.length := List.count_le_length v l
  have hlpos : 0 < l.length := by omega
  set s := l.mergeSort (fun a b => decide (a ≤ b)) with hsdef
  have hsplit : s.countP (fun a => decide (a < v)) + s.count v ≤ s.length :=
    countP_lt_add_count_le v s
  have hcount_le : s.count v ≤ s.countP (fun a => decide (a ≤ v)) := by
    apply List.countP_mono_left
    intro b _ hb
    have : b = v := by simpa using hb
    simp [this]
  have h1 : s.countP (fun a => decide (a < v)) ≤ s.length / 2 := by omega
  have h2 : s.length / 2 < s.countP (fun a => decide (a ≤ v)) := by omega
  have hk : s.length / 2 < s.length := Nat.div_lt_self (by omega) one_lt_two
  exact sorted_getD_eq v s hsorted (s.length / 2) hk h1 h2

/-- C1 (amended): the lost-tracking fallback of `track` triggers exactly when
fewer than 2 valid correspondences remain (the source tests the flat
coordinate array: `goodNext.length < 4` means fewer than two point pairs).
In that case the tracker state and box are returned unmodified with the lost
signal; with 2 or more valid correspondences the box is shifted by the
per-axis median displacement and clamped, with no lost signal. -/
theorem trackStep_lost_iff_fewer_than_two (st : TrackerState) (cols rows : ℚ)
    (nextPoints : List (ℚ × ℚ)) (status : List Bool) :
    ((goodMatches st.prevPoints nextPoints status).length < 2 →
      trackStep st cols rows nextPoints status = (st, st.bbox, true)) ∧
    (2 ≤ (goodMatches st.prevPoints nextPoints status).length →
      (trackStep st cols rows nextPoints status).2.2 = false ∧
      (trackStep st cols rows nextPoints status).2.1 =
        { x := max 0 (min (cols - st.bbox.width) (st.bbox.x +
            jsMedian ((goodMatches st.prevPoints nextPoints status).map
              (fun m => m.2.1 - m.1.1))))
          y := max 0 (min (rows - st.bbox.height) (st.bbox.y +
            jsMedian ((goodMatches st.prevPoints nextPoints status).map
              (fun m => m.2.2 - m.1.2))))
          width := st.bbox.width
          height := st.bbox.height }) :=
  ⟨trackStep_lost_eq st cols rows nextPoints status,
   fun h => by rw [trackStep_success_eq st cols rows nextPoints status h]; exact ⟨rfl, rfl⟩⟩

/-- C1 counterexample: with exactly 3 valid correspondences — fewer than the
4 the claim names — `track` does **not** return the unmodified box with a
lost signal: it takes the median-update branch and moves the box from
`x = 10` to `x = 11`. -/
theorem trackStep_three_valid_moves_box :
    (goodMatches st3.prevPoints next3 status3).length = 3 ∧
    (trackStep st3 100 100 next3 status3).2.2 = false ∧
    (trackStep st3 100 100 next3 status3).2.1 = ⟨11, 10, 5, 5⟩ ∧
    st3.bbox = ⟨10, 10, 5, 5⟩ := by
  have hg1 : (goodMatches st3.prevPoints next3 status3).map (fun m => m.2.1 - m.1.1) =
      [1, 1, 1] := by norm_num [goodMatches, st3, next3, status3]
  have hg2 : (goodMatches st3.prevPoints next3 status3).map (fun m => m.2.2 - m.1.2) =
      [0, 0, 0] := by norm_num [goodMatches, st3, next3, status3]
  have hmed1 : jsMedian ((goodMatches st3.prevPoints next3 status3).map
      (fun m => m.2.1 - m.1.1)) = 1 := by rw [hg1]; decide
  have hmed2 : jsMedian ((goodMatches st3.prevPoints next3 status3).map
      (fun m => m.2.2 - m.1.2)) = 0 := by rw [hg2]; decide
  have hs := trackStep_success_eq st3 100 100 next3 status3 (by decide)
  rw [hs]
  refine ⟨by decide, rfl, ?_, by decide⟩
  dsimp only
  rw [hmed1, hmed2]
  norm_num [st3, min_def, max_def, Box.mk.injEq]

/-- C1 witness: the amended threshold theorem applied on the concrete
empty-correspondence tracker. -/
theorem trackStep_lost_iff_fewer_than_two_witness :
    (goodMatches stEmpty.prevPoints ([] : List (ℚ × ℚ)) ([] : List Bool)).length < 2 ∧
    trackStep stEmpty 100 100 [] [] = (stEmpty, stEmpty.bbox, true) :=
  ⟨by decide, (trackStep_lost_iff_fewer_than_two stEmpty 100 100 [] []).1 (by decide)⟩

/-- C4 (amended): a `track` call that takes the median-update branch returns
a box satisfying `0 ≤ x`, `0 ≤ y`, `x + width ≤ frameWidth` and
`y + height ≤ frameHeight`, provided the box dimensions fit into the frame.
(The lost branch returns the previous box unmodified, and `initialize` stores
the user box without clamping, so on those paths the invariant can fail —
see the counterexample.) -/
theorem trackStep_update_box_within_frame (st : TrackerState) (cols rows : ℚ)
    (nextPoints : List (ℚ × ℚ)) (status : List Bool)
    (hgood : 2 ≤ (goodMatches st.prevPoints nextPoints status).length)
    (hwidth : st.bbox.width ≤ cols) (hheight : st.bbox.height ≤ rows) :
    0 ≤ (trackStep st cols rows nextPoints status).2.1.x ∧
    0 ≤ (trackStep st cols rows nextPoints status).2.1.y ∧
    (trackStep st cols rows nextPoints status).2.1.x +
      (trackStep st cols rows nextPoints status).2.1.width ≤ cols ∧
    (trackStep st cols rows nextPoints status).2.1.y +
      (trackStep st cols rows nextPoints status).2.1.height ≤ rows := by
  rw [trackStep_success_eq st cols rows nextPoints status hgood]
  dsimp only
  refine ⟨le_max_left 0 _, le_max_left 0 _, ?_, ?_⟩
  · have h1 : max 0 (min (cols - st.bbox.width) (st.bbox.x +
        jsMedian ((goodMatches st.prevPoints nextPoints status).map
          (fun m => m.2.1 - m.1.1)))) ≤ cols - st.bbox.width :=
      max_le (by linarith) (min_le_left _ _)
    linarith
  · have h1 : max 0 (min (rows - st.bbox.height) (st.bbox.y +
        jsMedian ((goodMatches st.prevPoints nextPoints status).map
          (fun m => m.2.2 - m.1.2)))) ≤ rows - st.bbox.height :=
      max_le (by linarith) (min_le_left _ _)
    linarith

/-- C4 counterexample: a tracker initialized with an out-of-frame box and
losing tracking returns that box unmodified from `track`: the returned box
has `x = -5 < 0`, violating the claimed invariant for a 100×100 frame. -/
theorem trackStep_returns_out_of_frame_box :
    (trackStep (initTracker badBox []) 100 100 [] []).2.1 = badBox ∧
    (trackStep (initTracker badBox []) 100 100 [] []).2.1.x < 0 := by
  decide

/-- C4 witness: the clamping theorem applied on the concrete three-point
tracker in a 100×100 frame. -/
theorem trackStep_update_box_within_frame_witness :
    2 ≤ (goodMatches st3.prevPoints next3 status3).length ∧
    st3.bbox.width ≤ 100 ∧ st3.bbox.height ≤ 100 ∧
    (0 ≤ (trackStep st3 100 100 next3 status3).2.1.x ∧
     0 ≤ (trackStep st3 100 100 next3 status3).2.1.y ∧
     (trackStep st3 100 100 next3 status3).2.1.x +
       (trackStep st3 100 100 next3 status3).2.1.width ≤ 100 ∧
     (trackStep st3 100 100 next3 status3).2.1.y +
       (trackStep st3 100 100 next3 status3).2.1.height ≤ 100) :=
  ⟨by decide, by decide, by decide,
   trackStep_update_box_within_frame st3 100 100 next3 status3 (by decide) (by decide)
     (by decide)⟩

/-- C5 (amended): when no detected feature point lies inside the initial box,
`initialize` completes normally — no `InsufficientFeatures` signal exists in
the code — storing an empty point set; every subsequent `track` call then
takes the lost-tracking branch and returns the box unchanged. -/
theorem initTracker_no_points_silent (bbox : Box) (detectedPoints : List (ℚ × ℚ))
    (h : ∀ p ∈ detectedPoints, pointInBBox bbox p = false) :
    (initTracker bbox detectedPoints).prevPoints = [] ∧
    ∀ (cols rows : ℚ) (nextPoints : List (ℚ × ℚ)) (status : List Bool),
      trackStep (initTracker bbox detectedPoints) cols rows nextPoints status =
        (initTracker bbox detectedPoints, bbox, true) := by
  have hempty : (initTracker bbox detectedPoints).prevPoints = [] := by
    simp only [initTracker]
    exact List.filter_eq_nil_iff.mpr (fun p hp => by simp [h p hp])
  refine ⟨hempty, fun cols rows nextPoints status => ?_⟩
  have hgm : goodMatches (initTracker bbox detectedPoints).prevPoints nextPoints status =
      [] := by
    rw [hempty]
    simp [goodMatches]
  exact trackStep_lost_eq _ _ _ _ _ (by rw [hgm]; norm_num)

/-- C5 counterexample: with zero detected features inside the box,
`initialize` does not fail and does not signal — it returns an ordinary
tracker state with an empty point set (and the following `track` silently
reports lost tracking, returning the box unchanged). -/
theorem initTracker_completes_with_empty_points :
    initTracker box0 farPoints = ⟨[], box0⟩ ∧
    trackStep (initTracker box0 farPoints) 100 100 [(1, 1), (51, 51)] [true, true] =
      (initTracker box0 farPoints, box0, true) := by
  have h0 : initTracker box0 farPoints = ⟨[], box0⟩ := by
    norm_num [initTracker, pointInBBox, box0, farPoints]
  refine ⟨h0, ?_⟩
  rw [h0]
  exact trackStep_lost_eq _ _ _ _ _ (by norm_num [goodMatches])

/-- C5 witness: the amended theorem applied on the concrete zero-points-in-box
scenario. -/
theorem initTracker_no_points_silent_witness :
    (∀ p ∈ farPoints, pointInBBox box0 p = false) ∧
    ((initTracker box0 farPoints).prevPoints = [] ∧
     ∀ (cols rows : ℚ) (nextPoints : List (ℚ × ℚ)) (status : List Bool),
       trackStep (initTracker box0 farPoints) cols rows nextPoints status =
         (initTracker box0 farPoints, box0, true)) :=
  ⟨by norm_num [farPoints, pointInBBox, box0],
   initTracker_no_points_silent box0 farPoints
     (by norm_num [farPoints, pointInBBox, box0])⟩

/-- C7: if `track` sees exactly 10 valid correspondences, at least 6 of which
agree on the displacement `(3, -2)` on each axis, and the box is far enough
from the frame border for the clamp not to bind, then the box is shifted by
exactly `(3, -2)` — the outliers do not influence the median. -/
theorem trackStep_median_shift (st : TrackerState) (cols rows : ℚ)
    (nextPoints : List (ℚ × ℚ)) (status : List Bool)
    (hlen : (goodMatches st.prevPoints nextPoints status).length = 10)
    (hdx : 6 ≤ ((goodMatches st.prevPoints nextPoints status).map
      (fun m => m.2.1 - m.1.1)).count 3)
    (hdy : 6 ≤ ((goodMatches st.prevPoints nextPoints status).map
      (fun m => m.2.2 - m.1.2)).count (-2))
    (hx0 : 0 ≤ st.bbox.x + 3) (hx1 : st.bbox.x + 3 ≤ cols - st.bbox.width)
    (hy0 : 0 ≤ st.bbox.y - 2) (hy1 : st.bbox.y - 2 ≤ rows - st.bbox.height) :
    (trackStep st cols rows nextPoints status).2.1 =
      { x := st.bbox.x + 3, y := st.bbox.y - 2,
        width := st.bbox.width, height := st.bbox.height } ∧
    (trackStep st cols rows nextPoints status).2.2 = false := by
  have hdxm : jsMedian ((goodMatches st.prevPoints nextPoints status).map
      (fun m => m.2.1 - m.1.1)) = 3 :=
    jsMedian_majority _ 3 (by rw [List.length_map, hlen]; omega)
  have hdym : jsMedian ((goodMatches st.prevPoints nextPoints status).map
      (fun m => m.2.2 - m.1.2)) = (-2) :=
    jsMedian_majority _ (-2) (by rw [List.length_map, hlen]; omega)
  rw [trackStep_success_eq st cols rows nextPoints status (by omega)]
  dsimp only
  rw [hdxm, hdym]
  constructor
  · rw [min_eq_right hx1, max_eq_right hx0,
      show st.bbox.y + -2 = st.bbox.y - 2 from by ring,
      min_eq_right hy1, max_eq_right hy0]
  · rfl

/-- C7 witness: the median-robustness theorem applied on the concrete
ten-point scenario (6 inliers at `(3, -2)`, 4 outliers) in a 100×100 frame. -/
theorem trackStep_median_shift_witness :
    (goodMatches st10.prevPoints next10 status10).length = 10 ∧
    ((trackStep st10 100 100 next10 status10).2.1 =
      { x := st10.bbox.x + 3, y := st10.bbox.y - 2,
        width := st10.bbox.width, height := st10.bbox.height } ∧
     (trackStep st10 100 100 next10 status10).2.2 = false) := by
  have hg1 : (goodMatches st10.prevPoints next10 status10).map (fun m => m.2.1 - m.1.1) =
      [3, 3, 3, 3, 3, 3, 20, -70, -10, -15] := by
    norm_num [goodMatches, st10, next10, status10]
  have hg2 : (goodMatches st10.prevPoints next10 status10).map (fun m => m.2.2 - m.1.2) =
      [-2, -2, -2, -2, -2, -2, 50, -5, 70, -40] := by
    norm_num [goodMatches, st10, next10, status10]
  refine ⟨by decide, trackStep_median_shift st10 100 100 next10 status10 (by decide)
    (by rw [hg1]; decide) (by rw [hg2]; decide)
    (by norm_num [st10]) (by norm_num [st10]) (by norm_num [st10]) (by norm_num [st10])⟩

/-- C8: for every input image — of any dimensions, with byte pixel values —
the tensor built by `imageDataToTensor` has dims exactly `[1, 3, 360, 480]`
and every element lies in `[0, 1]`.  The resampling oracle is assumed to
return bytes, which the browser `getImageData` guarantees. -/
theorem imageDataToTensor_dims_range (resample : Resample) (imageData : ImageData)
    (himg : ∀ j, 0 ≤ imageData.data j ∧ imageData.data j ≤ 255)
    (hres : ∀ img tw th j, 0 ≤ resample img tw th j ∧ resample img tw th j ≤ 255) :
    (imageDataToTensor resample imageData).dims = [1, 3, 360, 480] ∧
    ∀ k, k < 3 * (360 * 480) →
      0 ≤ (imageDataToTensor resample imageData).data k ∧
      (imageDataToTensor resample imageData).data k ≤ 1 := by
  have hbyte : ∀ j,
      0 ≤ (if imageData.width ≠ 480 ∨ imageData.height ≠ 360 then
            resizeImageData resample imageData 480 360
          else imageData).data j ∧
      (if imageData.width ≠ 480 ∨ imageData.height ≠ 360 then
            resizeImageData resample imageData 480 360
          else imageData).data j ≤ 255 := by
    intro j
    by_cases hc : imageData.width ≠ 480 ∨ imageData.height ≠ 360
    · rw [if_pos hc]
      simp only [resizeImageData]
      by_cases hj : j < 4 * 480 * 360
      · rw [if_pos hj]; exact hres imageData 480 360 j
      · rw [if_neg hj]; norm_num
    · rw [if_neg hc]; exact himg j
  have hdiv : ∀ v : ℚ, 0 ≤ v → v ≤ 255 → 0 ≤ v / 255 ∧ v / 255 ≤ 1 := by
    intro v h0 h255
    constructor
    · positivity
    · rw [div_le_one (by norm_num)]; linarith
  refine ⟨rfl, ?_⟩
  intro k _
  simp only [imageDataToTensor]
  by_cases h1 : k < 360 * 480
  · rw [if_pos h1]
    exact hdiv _ (hbyte _).1 (hbyte _).2
  · rw [if_neg h1]
    by_cases h2 : k < 2 * (360 * 480)
    · rw [if_pos h2]
      exact hdiv _ (hbyte _).1 (hbyte _).2
    · rw [if_neg h2]
      by_cases h3 : k < 3 * (360 * 480)
      · rw [if_pos h3]
        exact hdiv _ (hbyte _).1 (hbyte _).2
      · rw [if_neg h3]
        norm_num

/-- C8 witness: the tensor theorem applied on the concrete black frame with
the trivial byte-valued resampler. -/
theorem imageDataToTensor_dims_range_witness :
    (∀ j, 0 ≤ blackFrame.data j ∧ blackFrame.data j ≤ 255) ∧
    ((imageDataToTensor zeroResample blackFrame).dims = [1, 3, 360, 480] ∧
     ∀ k, k < 3 * (360 * 480) →
       0 ≤ (imageDataToTensor zeroResample blackFrame).data k ∧
       (imageDataToTensor zeroResample blackFrame).data k ≤ 1) :=
  ⟨fun _ => by norm_num [blackFrame],
   imageDataToTensor_dims_range zeroResample blackFrame
     (fun _ => by norm_num [blackFrame])
     (fun _ _ _ _ => by norm_num [zeroResample])⟩

/-- The progress values reported by the loop, in closed form. -/
theorem processFramesAux_snd {α β : Type} (pf : α → ℕ → β) (total : ℕ) :
    ∀ (l : List α) (i : ℕ),
      (processFramesAux pf total l i).2 = (List.range l.length).map
        (fun j : ℕ => 50 + ((i : ℚ) + (j : ℚ) + 1) / (total : ℚ) * 50) := by
  intro l
  induction l with
  | nil => intro i; rfl
  | cons a t ih =>
    intro i
    simp only [processFramesAux, List.length_cons, List.range_succ_eq_map,
      List.map_cons, List.map_map, List.cons.injEq]
    constructor
    · push_cast
      ring
    · rw [ih (i + 1)]
      apply List.map_congr_left
      intro j _
      simp only [Function.comp]
      push_cast
      ring

/-- C9: for a non-empty frame list the progress values that `processFrames`
reports are strictly increasing, all lie in `(50, 100]`, and the value
reported after the last frame is exactly 100. -/
theorem processFrames_progress {α β : Type} (frames : List α) (pf : α → ℕ → β)
    (hne : frames ≠ []) :
    (processFrames frames pf).2.Pairwise (· < ·) ∧
    (∀ v ∈ (processFrames frames pf).2, 50 < v ∧ v ≤ 100) ∧
    (processFrames frames pf).2.length = frames.length ∧
    (processFrames frames pf).2.getD (frames.length - 1) 0 = 100 := by
  have hn : 0 < frames.length := List.length_pos.mpr hne
  have hnq : (0 : ℚ) < (frames.length : ℚ) := by exact_mod_cast hn
  have hsnd : (processFrames frames pf).2 = (List.range frames.length).map
      (fun j : ℕ => 50 + ((0 : ℚ) + (j : ℚ) + 1) / (frames.length : ℚ) * 50) :=
    processFramesAux_snd pf frames.length frames 0
  refine ⟨?_, ?_, ?_, ?_⟩
  · rw [hsnd, List.pairwise_map]
    apply (List.pairwise_lt_range frames.length).imp
    intro j k hjk
    have hq : (j : ℚ) < (k : ℚ) := by exact_mod_cast hjk
    have : ((0 : ℚ) + (j : ℚ) + 1) / (frames.length : ℚ) <
        ((0 : ℚ) + (k : ℚ) + 1) / (frames.length : ℚ) :=
      (div_lt_div_iff_of_pos_right hnq).mpr (by linarith)
    nlinarith [this]
  · rw [hsnd]
    intro v hv
    obtain ⟨j, hj, rfl⟩ := List.mem_map.mp hv
    have hjn : j < frames.length := List.mem_range.mp hj
    have hj1 : (0 : ℚ) < (j : ℚ) + 1 := by positivity
    have hjle : (j : ℚ) + 1 ≤ (frames.length : ℚ) := by exact_mod_cast hjn
    constructor
    · have : 0 < ((0 : ℚ) + (j : ℚ) + 1) / (frames.length : ℚ) * 50 := by positivity
      linarith
    · have hfrac : ((0 : ℚ) + (j : ℚ) + 1) / (frames.length : ℚ) ≤ 1 := by
        rw [div_le_one hnq]
        linarith
      nlinarith [hfrac]
  · rw [hsnd, List.length_map, List.length_range]
  · have hlt : frames.length - 1 < ((List.range frames.length).map
        (fun j : ℕ => 50 + ((0 : ℚ) + (j : ℚ) + 1) / (frames.length : ℚ) * 50)).length := by
      rw [List.length_map, List.length_range]
      omega
    rw [hsnd, List.getD_eq_getElem _ _ hlt, List.getElem_map, List.getElem_range]
    have hcast : ((frames.length - 1 : ℕ) : ℚ) + 1 = (frames.length : ℚ) := by
      have : ((frames.length - 1 : ℕ) : ℚ) = (frames.length : ℚ) - 1 := by
        push_cast [hn]
        ring
      rw [this]
      ring
    rw [zero_add, hcast, div_self (ne_of_gt hnq)]
    norm_num

/-- C9 witness: the progress theorem applied on a concrete one-frame list. -/
theorem processFrames_progress_witness :
    ([0] : List ℕ) ≠ [] ∧
    ((processFrames ([0] : List ℕ) (fun _ _ => (0 : ℕ))).2.Pairwise (· < ·) ∧
     (∀ v ∈ (processFrames ([0] : List ℕ) (fun _ _ => (0 : ℕ))).2, 50 < v ∧ v ≤ 100) ∧
     (processFrames ([0] : List ℕ) (fun _ _ => (0 : ℕ))).2.length =
       ([0] : List ℕ).length ∧
     (processFrames ([0] : List ℕ) (fun _ _ => (0 : ℕ))).2.getD
       (([0] : List ℕ).length - 1) 0 = 100) :=
  ⟨by simp, processFrames_progress [0] (fun _ _ => 0) (by simp)⟩

/-- C10: for both dense trackers, if `track` throws at any point — reference
not set, flow computation, or warping — the stored session state is exactly
the state before the call, so a subsequent `track` behaves as if the failed
call had never happened. -/
theorem track_error_preserves_state :
    (∀ (computeOpticalFlow : ImageData → ImageData → Except String ((ℕ → ℚ) × ℕ × ℕ))
       (warp : ImageData → (ℕ → ℚ) → ℕ → ℕ → Except String ImageData)
       (st : RaftState) (next : ImageData) (e : String),
       (raftTrack computeOpticalFlow warp st next).1 = Except.error e →
       (raftTrack computeOpticalFlow warp st next).2 = st) ∧
    (∀ (cvtColor : ImageData → ImageData)
       (computeOpticalFlow : ImageData → ImageData → Except String ((ℕ → ℚ) × ℕ × ℕ))
       (warp : ImageData → (ℕ → ℚ) → ℕ → ℕ → Except String ImageData)
       (st : FarnebackState) (next : ImageData) (e : String),
       (farnebackTrack cvtColor computeOpticalFlow warp st next).1 = Except.error e →
       (farnebackTrack cvtColor computeOpticalFlow warp st next).2 = st) := by
  constructor
  · intro computeOpticalFlow warp st next e h
    rcases hpf : st.previousFrame with _ | prev <;>
      rcases hcm : st.currentMask with _ | mask <;>
      simp only [raftTrack, hpf, hcm]
    rcases hflow : computeOpticalFlow prev next with e' | ⟨flow, flowWidth, flowHeight⟩
    · rfl
    · rcases hwarp : warp mask flow flowWidth flowHeight with e' | warped
      · simp [hwarp]
      · exfalso
        simp only [raftTrack, hpf, hcm, hflow, hwarp] at h
        exact Except.noConfusion h
  · intro cvtColor computeOpticalFlow warp st next e h
    rcases hpf : st.previousFrameGray with _ | prevGray <;>
      rcases hcm : st.currentMask with _ | mask <;>
      simp only [farnebackTrack, hpf, hcm]
    rcases hflow : computeOpticalFlow prevGray (cvtColor next) with
      e' | ⟨flow, flowWidth, flowHeight⟩
    · rfl
    · rcases hwarp : warp mask flow flowWidth flowHeight with e' | warped
      · simp [hwarp]
      · exfalso
        simp only [farnebackTrack, hpf, hcm, hflow, hwarp] at h
        exact Except.noConfusion h

/-- C10 witness: a failing flow computation on a concrete session leaves the
session state untouched. -/
theorem track_error_preserves_state_witness :
    (raftTrack failFlow okWarp raftState0 blackFrame).1 =
      Except.error ("RAFT inference failed") ∧
    (raftTrack failFlow okWarp raftState0 blackFrame).2 = raftState0 :=
  ⟨rfl, track_error_preserves_state.1 failFlow okWarp raftState0 blackFrame
    ("RAFT inference failed") rfl⟩

end InpaintWeb

